import Mathlib

/-!
Verification of the SoCFPGA IOSSM mailbox driver
(`drivers/ddr/altera/iossm_mailbox.c`).

The driver's operations are shallowly embedded below.  Machine integers
are modelled as `Nat` with explicit masking where the C code truncates;
the memory-mapped register file is modelled as a state carrying the
register contents together with a log of all register writes, so that
claims about which registers get written (and in what order) can be
settled.  Hardware-supplied register contents (calibration status
registers, mailbox responses) are supplied by explicit oracles.
-/

/-- Register-map offsets for the IOSSM mailbox CSR block.
Modelled from the spec: the header `iossm_mailbox.h` defining the
numeric offsets is not part of the sources; the spec's register table
(section 6) lists the registers `CMD_PARAM_0..6`, `CMD_REQ`,
`CMD_RESPONSE_STATUS` and `CMD_RESPONSE_DATA_0..2` as distinct
registers, so they are given distinct word offsets here. -/
def IOSSM_CMD_PARAM_0_OFFSET : Nat := 0x00

/-- Offset of `CMD_PARAM_1` (see `IOSSM_CMD_PARAM_0_OFFSET`). -/
def IOSSM_CMD_PARAM_1_OFFSET : Nat := 0x04

/-- Offset of `CMD_PARAM_2` (see `IOSSM_CMD_PARAM_0_OFFSET`). -/
def IOSSM_CMD_PARAM_2_OFFSET : Nat := 0x08

/-- Offset of `CMD_PARAM_3` (see `IOSSM_CMD_PARAM_0_OFFSET`). -/
def IOSSM_CMD_PARAM_3_OFFSET : Nat := 0x0C

/-- Offset of `CMD_PARAM_4` (see `IOSSM_CMD_PARAM_0_OFFSET`). -/
def IOSSM_CMD_PARAM_4_OFFSET : Nat := 0x10

/-- Offset of `CMD_PARAM_5` (see `IOSSM_CMD_PARAM_0_OFFSET`). -/
def IOSSM_CMD_PARAM_5_OFFSET : Nat := 0x14

/-- Offset of `CMD_PARAM_6` (see `IOSSM_CMD_PARAM_0_OFFSET`). -/
def IOSSM_CMD_PARAM_6_OFFSET : Nat := 0x18

/-- Offset of the `CMD_REQ` doorbell register (see
`IOSSM_CMD_PARAM_0_OFFSET`). -/
def IOSSM_CMD_REQ_OFFSET : Nat := 0x1C

/-- Offset of the `CMD_RESPONSE_STATUS` register (see
`IOSSM_CMD_PARAM_0_OFFSET`). -/
def IOSSM_CMD_RESPONSE_STATUS_OFFSET : Nat := 0x20

/-- Offset of `CMD_RESPONSE_DATA_0` (see `IOSSM_CMD_PARAM_0_OFFSET`). -/
def IOSSM_CMD_RESPONSE_DATA_0_OFFSET : Nat := 0x24

/-- Offset of `CMD_RESPONSE_DATA_1` (see `IOSSM_CMD_PARAM_0_OFFSET`). -/
def IOSSM_CMD_RESPONSE_DATA_1_OFFSET : Nat := 0x28

/-- Offset of `CMD_RESPONSE_DATA_2` (see `IOSSM_CMD_PARAM_0_OFFSET`). -/
def IOSSM_CMD_RESPONSE_DATA_2_OFFSET : Nat := 0x2C

/-- The ready bit of `CMD_RESPONSE_STATUS`.
Modelled from the spec: the header is missing; the driver decodes
`STATUS_GENERAL_ERROR` as bits 1-4 and `STATUS_CMD_RESPONSE_ERROR` as
bits 5-7 of the status word, so the ready bit is bit 0. -/
def IOSSM_STATUS_COMMAND_RESPONSE_READY : Nat := 1

/-- Short-data field of the `CMD_RESPONSE_STATUS` word.
Modelled from the spec: the macro comes from the missing header; the
spec describes a packed status word whose low byte holds the ready bit
and the two error fields, with a "short" data field used for
single-word results, placed here in the upper half. -/
def IOSSM_CMD_RESPONSE_DATA_SHORT (x : Nat) : Nat := (x >>> 16) &&& 0xFFFF

/-- `MAX_RETRY_COUNT` from `iossm_mailbox.c` line 20. -/
def MAX_RETRY_COUNT : Nat := 3

/-- `NUM_CMD_RESPONSE_DATA` from `iossm_mailbox.c` line 21. -/
def NUM_CMD_RESPONSE_DATA : Nat := 3

/-- Calibration-success sentinel read from the live status register.
Modelled from the spec: the numeric value lives in the missing header;
the driver only ever compares the register value against it for
equality, so any fixed value is faithful. -/
def INTF_MEM_CAL_STATUS_SUCCESS : Nat := 1

/-- Linux errno `EPERM`, returned (negated) on calibration failure. -/
def EPERM : Int := 1

/-- Linux errno `ENOEXEC`, returned (negated) on consistency failures. -/
def ENOEXEC : Int := 8

/-- Linux errno `ETIMEDOUT`, the error produced by `wait_for_bit_le32`
when the polled condition does not come true within the timeout. -/
def ETIMEDOUT : Int := 110

/-- The register file of one IO96B CSR block together with a log of all
register writes performed so far (in program order).  Reads are pure;
`writel` both updates the register and appends to the log. -/
structure MbState where
  regs : Nat → Nat
  writes : List (Nat × Nat)

/-- `readl`: read the register at `off`. -/
def readl (s : MbState) (off : Nat) : Nat := s.regs off

/-- `writel(v, off)`: write `v` to the register at `off`, recording the
write in the log. -/
def writel (s : MbState) (v off : Nat) : MbState :=
  { regs := fun a => if a = off then v else s.regs a
    writes := s.writes ++ [(off, v)] }

/-- One arm of the `CMD_PARAM` write loop of `io96b_mb_req`
(`iossm_mailbox.c` lines 131-164): `if (cmd_param_k) writel(...)`. -/
def writel_param (s : MbState) (v off : Nat) : MbState :=
  if v ≠ 0 then writel s v off else s

/-- The packed `cmd_req` doorbell word of `io96b_mb_req`
(`iossm_mailbox.c` lines 167-168):
`(opcode << 0) | (type << 16) | (instance_id << 24) | (ip_type << 29)`,
truncated to 32 bits by `writel`. -/
def cmd_req_word (usr_cmd_opcode usr_cmd_type instance_id ip_type : Nat) : Nat :=
  (usr_cmd_opcode ||| (usr_cmd_type <<< 16) ||| (instance_id <<< 24) |||
    (ip_type <<< 29)) &&& 0xFFFFFFFF

/-- `struct io96b_mb_resp`: the response status word and the 3-element
`cmd_resp_data` array (its three cells are separate fields here; the
C code only ever indexes the array with the constants 0, 1, 2). -/
structure Io96bMbResp where
  cmd_resp_status : Nat
  cmd_resp_data_0 : Nat
  cmd_resp_data_1 : Nat
  cmd_resp_data_2 : Nat
deriving Repr, DecidableEq

/-- `io96b_mb_req` (`iossm_mailbox.c` lines 106-236): zero the response,
wait for `CMD_REQ` to read as all-zero, write each non-zero
`cmd_param_*` (the source loop runs `for (i = 0; i < 6; i++)`, so slot 6
is never written although `case 6` exists in the switch), write the
packed doorbell word, wait for the ready bit, read the status word and
the first `resp_data_len` data words (indices beyond 2 only print a
diagnostic), re-read the status word, and clear the ready bit.
The two `wait_for_bit_le32` polls are modelled against the current
register contents: the poll succeeds exactly when its condition holds
of the register file. -/
def io96b_mb_req (s0 : MbState) (ip_type instance_id usr_cmd_type usr_cmd_opcode
    cmd_param_0 cmd_param_1 cmd_param_2 cmd_param_3 cmd_param_4 cmd_param_5
    cmd_param_6 resp_data_len : Nat) : Int × Io96bMbResp × MbState :=
  let resp : Io96bMbResp := ⟨0, 0, 0, 0⟩
  if readl s0 IOSSM_CMD_REQ_OFFSET &&& 0xFFFFFFFF ≠ 0 then
    (-ETIMEDOUT, resp, s0)
  else
    let s1 := writel_param s0 cmd_param_0 IOSSM_CMD_PARAM_0_OFFSET
    let s2 := writel_param s1 cmd_param_1 IOSSM_CMD_PARAM_1_OFFSET
    let s3 := writel_param s2 cmd_param_2 IOSSM_CMD_PARAM_2_OFFSET
    let s4 := writel_param s3 cmd_param_3 IOSSM_CMD_PARAM_3_OFFSET
    let s5 := writel_param s4 cmd_param_4 IOSSM_CMD_PARAM_4_OFFSET
    let s6 := writel_param s5 cmd_param_5 IOSSM_CMD_PARAM_5_OFFSET
    let cmd_req := cmd_req_word usr_cmd_opcode usr_cmd_type instance_id ip_type
    let s7 := writel s6 cmd_req IOSSM_CMD_REQ_OFFSET
    if readl s7 IOSSM_CMD_RESPONSE_STATUS_OFFSET &&&
        IOSSM_STATUS_COMMAND_RESPONSE_READY = 0 then
      (-ETIMEDOUT, resp, s7)
    else
      let resp := { resp with
        cmd_resp_status := readl s7 IOSSM_CMD_RESPONSE_STATUS_OFFSET }
      let resp := if 0 < resp_data_len then
        { resp with cmd_resp_data_0 := readl s7 IOSSM_CMD_RESPONSE_DATA_0_OFFSET }
        else resp
      let resp := if 1 < resp_data_len then
        { resp with cmd_resp_data_1 := readl s7 IOSSM_CMD_RESPONSE_DATA_1_OFFSET }
        else resp
      let resp := if 2 < resp_data_len then
        { resp with cmd_resp_data_2 := readl s7 IOSSM_CMD_RESPONSE_DATA_2_OFFSET }
        else resp
      let resp := { resp with
        cmd_resp_status := readl s7 IOSSM_CMD_RESPONSE_STATUS_OFFSET }
      let s8 := writel s7
        (readl s7 IOSSM_CMD_RESPONSE_STATUS_OFFSET &&&
          (0xFFFFFFFF ^^^ IOSSM_STATUS_COMMAND_RESPONSE_READY))
        IOSSM_CMD_RESPONSE_STATUS_OFFSET
      (0, resp, s8)

/-- Bits 29-31 of an interface descriptor word:
`FIELD_GET(INTF_IP_TYPE_MASK, w)` with `INTF_IP_TYPE_MASK = GENMASK(31, 29)`. -/
def intf_ip_type (w : Nat) : Nat := (w >>> 29) &&& 0x7

/-- Bits 24-28 of an interface descriptor word:
`FIELD_GET(INTF_INSTANCE_ID_MASK, w)` with
`INTF_INSTANCE_ID_MASK = GENMASK(28, 24)`. -/
def intf_instance_id (w : Nat) : Nat := (w >>> 24) &&& 0x1F

/-- The recording loop of `io96b_mb_init` (`iossm_mailbox.c` lines
267-282): walk the first `n` response data words (`k` loop); for each
word with a non-zero IP-type field, append the (IP type, instance id)
pair at the next free table slot (`j` counter); words with a zero
IP-type field are skipped. -/
def mb_init_scan : Nat → List Nat → List (Nat × Nat)
  | 0, _ => []
  | _ + 1, [] => []
  | k + 1, w :: ws =>
    if intf_ip_type w ≠ 0 then
      (intf_ip_type w, intf_instance_id w) :: mb_init_scan k ws
    else
      mb_init_scan k ws

/-- Per-instance body of `io96b_mb_init` (`iossm_mailbox.c` lines
249-283), given the response `usr_resp` of the
`GET_MEM_INTF_INFO` command (issued with `resp_data_len = 2`, so
`cmd_resp_data_2` is still its zero-initialised value): returns the
recorded `num_mem_interface` count (low 2 bits of the short-data field)
and the recorded table of (IP type, instance id) pairs. -/
def io96b_mb_init_instance (usr_resp : Io96bMbResp) : Nat × List (Nat × Nat) :=
  let n := IOSSM_CMD_RESPONSE_DATA_SHORT usr_resp.cmd_resp_status &&& 0x3
  (n, mb_init_scan n
    [usr_resp.cmd_resp_data_0, usr_resp.cmd_resp_data_1, usr_resp.cmd_resp_data_2])

/-- What the spec asks the enumerator to record: exactly those of the
first `n` response data words whose IP-type field is non-zero, each
stored as its (IP type, instance id) pair.  Stated from the spec's
words, to be compared with `mb_init_scan` (the source's loop). -/
def spec_recorded_entries (n : Nat) (words : List Nat) : List (Nat × Nat) :=
  ((words.take n).filter (fun w => intf_ip_type w != 0)).map
    (fun w => (intf_ip_type w, intf_instance_id w))

/-- The bounded re-calibration loop of `trig_mem_cal`
(`iossm_mailbox.c` lines 377-408) for one memory interface.
`statusRead r` is the value the live calibration status register
delivers on its `r`-th read (the register offset is re-supplied by a
`GET_MEM_CAL_STATUS` mailbox response before every read; the oracle is
indexed by the read count, which absorbs that re-query).  The arguments
are the remaining iteration budget `k` (started at `MAX_RETRY_COUNT`),
the number of status reads performed so far and the number of
`TRIG_MEM_CAL` trigger commands issued so far; the result is
(`recal_success`, total status reads, total trigger commands). -/
def trig_mem_cal_retry (statusRead : Nat → Nat) :
    Nat → Nat → Nat → Bool × Nat × Nat
  | 0, reads, trigs => (false, reads, trigs)
  | k + 1, reads, trigs =>
    if statusRead reads = INTF_MEM_CAL_STATUS_SUCCESS then
      (true, reads + 1, trigs)
    else
      trig_mem_cal_retry statusRead k (reads + 1) (trigs + 1)

/-- The full retry loop for one interface: `MAX_RETRY_COUNT` iterations,
no reads or triggers yet. -/
def trig_mem_cal_intf (statusRead : Nat → Nat) : Bool × Nat × Nat :=
  trig_mem_cal_retry statusRead MAX_RETRY_COUNT 0 0

/-- The per-instance part of `trig_mem_cal` (`iossm_mailbox.c` lines
364-421) for an instance whose initial calibration failed: each memory
interface (one status-read oracle per interface) runs the bounded retry
loop; if an interface exhausts the bound, the function returns
`ret = -EPERM` immediately (`goto err`) with the instance's
`cal_status` still `false`; only when every interface recovered is
`cal_status` set `true` (line 417) with `ret = 0`.  The result is
(`cal_status` of the instance, `ret`). -/
def trig_mem_cal_instance : List (Nat → Nat) → Bool × Int
  | [] => (true, 0)
  | o :: rest =>
    if (trig_mem_cal_intf o).1 then trig_mem_cal_instance rest
    else (false, -EPERM)

/-- The DDR-DBE re-check of `sdram_mmr_init_full` (`iossm_mailbox.c`
lines 967-972): when a DDR double-bit error is recorded, the loop
`for (i = 0; i < num; i++)` sets every instance's `cal_status` to
`false`, and then — with the loop variable left at `i = num` — the code
executes `overall_cal_status &= io96b[i].cal_status`, i.e. it ANDs the
overall flag with the entry one past the populated instances.
`cal_status` is the per-index calibration flag, total over `Nat` so that
the out-of-range access at index `num` reads whatever stale value that
memory holds.  Returns the updated flags and the updated overall flag. -/
def dbe_recal_recheck (num : Nat) (cal_status : Nat → Bool) (overall : Bool) :
    (Nat → Bool) × Bool :=
  let cal' := fun n => if n < num then false else cal_status n
  (cal', overall && cal' num)

/-- `ddr_type_list` (`iossm_mailbox.c` lines 32-34): the supported DDR
type names, indexed by the 3-bit type code of the
`GET_MEM_TECHNOLOGY` response. -/
def ddr_type_list : List String :=
  ["DDR4", "DDR5", "DDR5_RDIMM", "LPDDR4", "LPDDR5", "QDRIV", "UNKNOWN"]

/-- Look up a type code in `ddr_type_list`.  Codes 0-6 are in range; the
code can be 7 (the field is `& GENMASK(2, 0)`), for which the C array
access is out of bounds — modelled as a string distinct from every
table entry. -/
def ddr_type_at (r : Nat) : String := ddr_type_list.getD r "OUT_OF_BOUNDS"

/-- Inner (per-interface) loop of `get_mem_technology`
(`iossm_mailbox.c` lines 442-464) over one instance's reported type
codes, carrying the instance index `i` (for the error report) and the
current aggregate `ddr_type`.  For each report: if the aggregate is
still `"UNKNOWN"` it is (re-)seeded with the reported type
(the `strcmp` at line 456); then the reported type is compared with the
aggregate (the pointer comparison at line 459 — faithful as string
comparison because the table entries are pairwise distinct) and a
mismatch returns `-ENOEXEC` naming instance `i`.  The error value is
the offending instance index. -/
def gmt_intf (i : Nat) : List Nat → String → Except Nat String
  | [], t => .ok t
  | r :: rs, t =>
    let t' := if t = "UNKNOWN" then ddr_type_at r else t
    if ddr_type_at r ≠ t' then .error i
    else gmt_intf i rs t'

/-- Outer (per-instance) loop of `get_mem_technology`. -/
def gmt_loop : List (List Nat) → Nat → String → Except Nat String
  | [], _, t => .ok t
  | intf :: rest, i, t =>
    match gmt_intf i intf t with
    | .error e => .error e
    | .ok t' => gmt_loop rest (i + 1) t'

/-- `get_mem_technology` (`iossm_mailbox.c` lines 431-469), abstracted
over the per-interface reported type codes (the low 3 bits of each
`GET_MEM_TECHNOLOGY` response's short-data field): the aggregate is
initialised to `ddr_type_list[6] = "UNKNOWN"` and folded over every
interface of every instance; the result is the aggregate type on
success or the offending instance index on a consistency error. -/
def get_mem_technology (reports : List (List Nat)) : Except Nat String :=
  gmt_loop reports 0 "UNKNOWN"

/-- Inner loop of `get_mem_width_info` (`iossm_mailbox.c` lines
481-493) for one instance: `memory_size` is a `u16` accumulating
`usr_resp.cmd_resp_data[1] & GENMASK(7, 0)` over the instance's
interfaces (arithmetic mod 2^16). -/
def gmw_instance_size (words : List Nat) : Nat :=
  words.foldl (fun acc w => (acc + (w &&& 0xFF)) % 65536) 0

/-- `get_mem_width_info` (`iossm_mailbox.c` lines 471-516), abstracted
over each interface's second response data word (`cmd_resp_data[1]`),
grouped by instance.  Per instance the sizes are summed (u16); a zero
instance size is an error (`-ENOEXEC`); each instance size is stored
and added into the u16 running total; a zero total is an error; on
success the result is (per-instance sizes in order, overall size). -/
def gmw_loop : List (List Nat) → List Nat → Nat → Except Int (List Nat × Nat)
  | [], sizes, total =>
    if total = 0 then .error (-ENOEXEC) else .ok (sizes.reverse, total)
  | ws :: rest, sizes, total =>
    let memory_size := gmw_instance_size ws
    if memory_size = 0 then .error (-ENOEXEC)
    else gmw_loop rest (memory_size :: sizes) ((total + memory_size) % 65536)

/-- Entry point of the `get_mem_width_info` model. -/
def get_mem_width_info (insts : List (List Nat)) : Except Int (List Nat × Nat) :=
  gmw_loop insts [] 0

/-- A concrete register file used for evaluating `io96b_mb_req`: the
`CMD_REQ` register reads as zero (mailbox idle), the response-status
register has the ready bit set, every other register reads zero, and
the write log is empty. -/
def mb_test_state : MbState :=
  { regs := fun off => if off = IOSSM_CMD_RESPONSE_STATUS_OFFSET then 1 else 0
    writes := [] }

/-- Index of the first instance (list of per-interface type codes)
containing a report different from `v`; `none` when every report of
every instance equals `v`.  Spec-side description of which instance a
`get_mem_technology` consistency error names. -/
def first_mismatch (v : Nat) : List (List Nat) → Option Nat
  | [] => none
  | rs :: rest =>
    if rs.all (fun r => r == v) then (first_mismatch v rest).map (· + 1)
    else some 0

/-- Spec-side per-interface size: the sum (over a list of second
response data words) of the low 8 bits of each word, as an unbounded
natural number. -/
def low_byte_sum (ws : List Nat) : Nat := (ws.map (fun w => w &&& 0xFF)).sum

theorem lor_shiftLeft_eq_add {n : Nat} (a b : Nat) (h : a < 2 ^ n) :
    a ||| b <<< n = a + b * 2 ^ n := by
  rw [Nat.shiftLeft_eq, Nat.lor_comm, Nat.mul_comm b (2 ^ n),
    ← Nat.mul_add_lt_is_or h b]
  omega

theorem cmd_req_word_eq_add (op ct id ip : Nat)
    (hop : op < 2 ^ 16) (hct : ct < 2 ^ 8) (hid : id < 2 ^ 5) (hip : ip < 2 ^ 3) :
    cmd_req_word op ct id ip = op + ct * 2 ^ 16 + id * 2 ^ 24 + ip * 2 ^ 29 := by
  unfold cmd_req_word
  rw [lor_shiftLeft_eq_add (n := 16) op ct hop]
  rw [lor_shiftLeft_eq_add (n := 24) _ id (by omega)]
  rw [lor_shiftLeft_eq_add (n := 29) _ ip (by omega)]
  rw [show (0xFFFFFFFF : Nat) = 2 ^ 32 - 1 by norm_num,
    Nat.and_pow_two_sub_one_eq_mod]
  omega

theorem cmd_req_word_fields (op ct id ip : Nat)
    (hop : op < 2 ^ 16) (hct : ct < 2 ^ 8) (hid : id < 2 ^ 5) (hip : ip < 2 ^ 3) :
    cmd_req_word op ct id ip &&& 0xFFFF = op ∧
    (cmd_req_word op ct id ip >>> 16) &&& 0xFF = ct ∧
    (cmd_req_word op ct id ip >>> 24) &&& 0x1F = id ∧
    cmd_req_word op ct id ip >>> 29 = ip := by
  rw [cmd_req_word_eq_add op ct id ip hop hct hid hip]
  rw [show (0xFFFF : Nat) = 2 ^ 16 - 1 by norm_num,
    show (0xFF : Nat) = 2 ^ 8 - 1 by norm_num,
    show (0x1F : Nat) = 2 ^ 5 - 1 by norm_num,
    Nat.and_pow_two_sub_one_eq_mod, Nat.and_pow_two_sub_one_eq_mod,
    Nat.and_pow_two_sub_one_eq_mod, Nat.shiftRight_eq_div_pow,
    Nat.shiftRight_eq_div_pow]
  refine ⟨by omega, by omega, by omega, by omega⟩

theorem retry_step (f : Nat → Nat) (k reads trigs : Nat) :
    trig_mem_cal_retry f (k + 1) reads trigs =
      if f reads = INTF_MEM_CAL_STATUS_SUCCESS then (true, reads + 1, trigs)
      else trig_mem_cal_retry f k (reads + 1) (trigs + 1) := rfl

/-- C1: for an interface of an instance whose initial calibration check
failed, the `trig_mem_cal` retry loop reads the live calibration status
register at most `MAX_RETRY_COUNT = 3` times; if the register reports
success on read `k + 1` with `k < 3`, the interface is marked recovered
(`recal_success`) with exactly `k` trigger-calibration commands issued
(one after each failed read); if all 3 reads fail, the loop ends
without recovery, the instance's `cal_status` stays `false`, and the
call returns the fatal `-EPERM` (RetryExhausted) for the whole
instance. -/
theorem C1_trig_mem_cal_retry_bound :
    (∀ (f : Nat → Nat) (k : Nat), k < MAX_RETRY_COUNT →
      (∀ m, m < k → f m ≠ INTF_MEM_CAL_STATUS_SUCCESS) →
      f k = INTF_MEM_CAL_STATUS_SUCCESS →
      trig_mem_cal_intf f = (true, k + 1, k)) ∧
    (∀ f : Nat → Nat,
      (∀ m, m < MAX_RETRY_COUNT → f m ≠ INTF_MEM_CAL_STATUS_SUCCESS) →
      trig_mem_cal_intf f = (false, MAX_RETRY_COUNT, MAX_RETRY_COUNT) ∧
      trig_mem_cal_instance [f] = (false, -EPERM)) ∧
    (∀ f : Nat → Nat, (trig_mem_cal_intf f).2.1 ≤ MAX_RETRY_COUNT) := by
  refine ⟨?_, ?_, ?_⟩
  · intro f k hk hfail hs
    simp only [MAX_RETRY_COUNT] at hk
    simp only [trig_mem_cal_intf, MAX_RETRY_COUNT]
    interval_cases k
    · rw [show (3:Nat) = 2 + 1 from rfl, retry_step, if_pos hs]
    · rw [show (3:Nat) = 2 + 1 from rfl, retry_step,
        if_neg (hfail 0 (by omega)),
        show (2:Nat) = 1 + 1 from rfl, retry_step, if_pos hs]
    · rw [show (3:Nat) = 2 + 1 from rfl, retry_step,
        if_neg (hfail 0 (by omega)),
        show (2:Nat) = 1 + 1 from rfl, retry_step, if_neg (hfail 1 (by omega)),
        show (1:Nat) = 0 + 1 from rfl, retry_step, if_pos hs]
  · intro f hfail
    simp only [MAX_RETRY_COUNT] at hfail
    have h : trig_mem_cal_intf f = (false, 3, 3) := by
      simp only [trig_mem_cal_intf, MAX_RETRY_COUNT]
      rw [show (3:Nat) = 2 + 1 from rfl, retry_step, if_neg (hfail 0 (by omega)),
        show (2:Nat) = 1 + 1 from rfl, retry_step, if_neg (hfail 1 (by omega)),
        show (1:Nat) = 0 + 1 from rfl, retry_step, if_neg (hfail 2 (by omega))]
      rfl
    exact ⟨h, by simp [trig_mem_cal_instance, h]⟩
  · intro f
    simp only [trig_mem_cal_intf, MAX_RETRY_COUNT]
    rw [show (3:Nat) = 2 + 1 from rfl, retry_step]
    split
    · simp
    · rw [show (2:Nat) = 1 + 1 from rfl, retry_step]
      split
      · simp
      · rw [show (1:Nat) = 0 + 1 from rfl, retry_step]
        split <;> simp [trig_mem_cal_retry]

/-- Witness for C1: a status register failing twice then reporting
success on the third read recovers after 3 reads and 2 triggers; a
register never reporting success exhausts the bound after 3 reads and
3 triggers and the instance fails with `-EPERM`. -/
theorem C1_trig_mem_cal_retry_bound_witness :
    trig_mem_cal_intf
        (fun n => if n = 2 then INTF_MEM_CAL_STATUS_SUCCESS else 0) =
      (true, 3, 2) ∧
    trig_mem_cal_intf (fun _ => 0) = (false, 3, 3) ∧
    trig_mem_cal_instance [fun _ => 0] = (false, -EPERM) :=
  ⟨C1_trig_mem_cal_retry_bound.1
      (fun n => if n = 2 then INTF_MEM_CAL_STATUS_SUCCESS else 0) 2
      (by decide) (by decide) (by decide),
    (C1_trig_mem_cal_retry_bound.2.1 (fun _ => 0) (by decide)).1,
    (C1_trig_mem_cal_retry_bound.2.1 (fun _ => 0) (by decide)).2⟩

/-- C3: the claim says every update of the overall calibration-passed
flag recomputes it as the AND of all instances' flags.  The code
violates this: in the DDR-DBE re-check of `sdram_mmr_init_full`, after
every instance's `cal_status` is set `false`, the overall flag is ANDed
with `io96b[i].cal_status` where the loop variable `i` equals
`num_instance` — a stale, out-of-range index.  Evaluated here with 2
instances, both flags freshly cleared and the stale slot reading
`true`: the overall flag remains `true` although the AND of the
instances' flags is `false`. -/
theorem C3_overall_cal_status_stale_index :
    (dbe_recal_recheck 2 (fun _ => true) true).2 = true ∧
    (∀ i, i < 2 → (dbe_recal_recheck 2 (fun _ => true) true).1 i = false) := by
  constructor
  · rfl
  · intro i hi
    simp [dbe_recal_recheck, hi]

theorem scan_eq_filter (ws : List Nat) :
    ∀ n, mb_init_scan n ws = spec_recorded_entries n ws := by
  induction ws with
  | nil => intro n; cases n <;> simp [mb_init_scan, spec_recorded_entries]
  | cons w ws ih =>
    intro n
    cases n with
    | zero => simp [mb_init_scan, spec_recorded_entries]
    | succ k =>
      by_cases h : intf_ip_type w = 0 <;>
        simp [mb_init_scan, spec_recorded_entries, h, ih k,
          List.filter_cons, List.take_succ_cons]

/-- C4: the enumerator records as table entries exactly those of the
first `n` response data words (where `n` is the low 2 bits of the
status word's short-data field) whose IP-type field (bits 29-31) is
non-zero, storing the (IP type, instance id from bits 24-28) pair of
each; in particular a response reporting 2 interfaces whose second data
word has a zero IP-type field records exactly 1 entry. -/
theorem C4_enumerator_skips_zero_ip_type :
    (∀ usr_resp : Io96bMbResp,
      (io96b_mb_init_instance usr_resp).2 =
        spec_recorded_entries
          (IOSSM_CMD_RESPONSE_DATA_SHORT usr_resp.cmd_resp_status &&& 0x3)
          [usr_resp.cmd_resp_data_0, usr_resp.cmd_resp_data_1,
            usr_resp.cmd_resp_data_2]) ∧
    io96b_mb_init_instance ⟨0x20000, 0x25000000, 0, 0⟩ = (2, [(1, 5)]) := by
  constructor
  · intro usr_resp
    simp only [io96b_mb_init_instance]
    exact scan_eq_filter _ _
  · decide

theorem readl_writel_same (s : MbState) (v off : Nat) :
    readl (writel s v off) off = v := by
  simp [readl, writel]

theorem readl_writel_other (s : MbState) (v off a : Nat) (h : a ≠ off) :
    readl (writel s v off) a = readl s a := by
  simp [readl, writel, h]

theorem readl_writel_param_other (s : MbState) (v off a : Nat) (h : a ≠ off) :
    readl (writel_param s v off) a = readl s a := by
  unfold writel_param
  split
  · exact readl_writel_other s v off a h
  · rfl

theorem filter_writes_writel (s : MbState) (v off tgt : Nat)
    (h : (off == tgt) = false) :
    (writel s v off).writes.filter (fun p => p.1 == tgt) =
      s.writes.filter (fun p => p.1 == tgt) := by
  simp [writel, List.filter_append, h]

theorem filter_writes_writel_param (s : MbState) (v off tgt : Nat)
    (h : (off == tgt) = false) :
    (writel_param s v off).writes.filter (fun p => p.1 == tgt) =
      s.writes.filter (fun p => p.1 == tgt) := by
  unfold writel_param
  split
  · exact filter_writes_writel s v off tgt h
  · rfl

theorem filter_writes_writel_self (s : MbState) (v off : Nat) :
    (writel s v off).writes.filter (fun p => p.1 == off) =
      s.writes.filter (fun p => p.1 == off) ++ [(off, v)] := by
  simp [writel, List.filter_append]

/-- C6: whenever `io96b_mb_req` returns success, the ready bit of the
response-status register has been cleared (the `clrbits_le32`
acknowledgement has been issued) before the call returns: the returned
register state shows the ready bit as 0. -/
theorem C6_ready_bit_cleared_on_success
    (s0 : MbState) (a b c d p0 p1 p2 p3 p4 p5 p6 len : Nat) :
    (io96b_mb_req s0 a b c d p0 p1 p2 p3 p4 p5 p6 len).1 = 0 →
    readl (io96b_mb_req s0 a b c d p0 p1 p2 p3 p4 p5 p6 len).2.2
        IOSSM_CMD_RESPONSE_STATUS_OFFSET &&&
      IOSSM_STATUS_COMMAND_RESPONSE_READY = 0 := by
  unfold io96b_mb_req
  dsimp only
  split
  · intro h
    exact absurd h (by norm_num [ETIMEDOUT])
  · split
    · intro h
      exact absurd h (by norm_num [ETIMEDOUT])
    · intro _
      rw [readl_writel_same, IOSSM_STATUS_COMMAND_RESPONSE_READY, Nat.and_assoc]
      norm_num

/-- Witness for C6: a concrete idle-and-ready register file on which
the call succeeds and the final status register has a cleared ready
bit. -/
theorem C6_ready_bit_cleared_on_success_witness :
    readl (io96b_mb_req mb_test_state 0 0 0 0 0 0 0 0 0 0 0 0).2.2
        IOSSM_CMD_RESPONSE_STATUS_OFFSET &&&
      IOSSM_STATUS_COMMAND_RESPONSE_READY = 0 :=
  C6_ready_bit_cleared_on_success mb_test_state 0 0 0 0 0 0 0 0 0 0 0 0
    (by decide)

/-- C10: `io96b_mb_req` zeroes the caller's response structure — the
status word and all 3 data words — before touching any register;
consequently on any failing return (`ret ≠ 0`, i.e. either wait timed
out before the response was read) the whole response still reads as
zero, and on any return each data word beyond the requested
`resp_data_len` reads as zero. -/
theorem C10_resp_zero_init
    (s0 : MbState) (a b c d p0 p1 p2 p3 p4 p5 p6 len : Nat) :
    ((io96b_mb_req s0 a b c d p0 p1 p2 p3 p4 p5 p6 len).1 ≠ 0 →
      (io96b_mb_req s0 a b c d p0 p1 p2 p3 p4 p5 p6 len).2.1 = ⟨0, 0, 0, 0⟩) ∧
    (len = 0 →
      (io96b_mb_req s0 a b c d p0 p1 p2 p3 p4 p5 p6 len).2.1.cmd_resp_data_0 = 0) ∧
    (len ≤ 1 →
      (io96b_mb_req s0 a b c d p0 p1 p2 p3 p4 p5 p6 len).2.1.cmd_resp_data_1 = 0) ∧
    (len ≤ 2 →
      (io96b_mb_req s0 a b c d p0 p1 p2 p3 p4 p5 p6 len).2.1.cmd_resp_data_2 = 0) := by
  unfold io96b_mb_req
  dsimp only
  split
  · exact ⟨fun _ => rfl, fun _ => rfl, fun _ => rfl, fun _ => rfl⟩
  · split
    · exact ⟨fun _ => rfl, fun _ => rfl, fun _ => rfl, fun _ => rfl⟩
    · refine ⟨fun h => absurd rfl h, fun h0 => ?_, fun h1 => ?_, fun h2 => ?_⟩
      · rw [if_neg (by omega : ¬ 0 < len)]
        split <;> split <;> rfl
      · rw [if_neg (by omega : ¬ 1 < len)]
        split <;> split <;> rfl
      · rw [if_neg (by omega : ¬ 2 < len)]
        split <;> split <;> rfl

/-- Witness for C10: on a busy mailbox (non-zero `CMD_REQ`) the call
fails and returns the all-zero response; on the idle-and-ready state
with `resp_data_len = 2` the third data word reads zero. -/
theorem C10_resp_zero_init_witness :
    (io96b_mb_req ⟨fun _ => 5, []⟩ 0 0 0 0 0 0 0 0 0 0 0 2).2.1 = ⟨0, 0, 0, 0⟩ ∧
    (io96b_mb_req mb_test_state 0 0 0 0 0 0 0 0 0 0 0 2).2.1.cmd_resp_data_2 = 0 :=
  ⟨(C10_resp_zero_init ⟨fun _ => 5, []⟩ 0 0 0 0 0 0 0 0 0 0 0 2).1 (by decide),
    (C10_resp_zero_init mb_test_state 0 0 0 0 0 0 0 0 0 0 0 2).2.2.2 (by decide)⟩

/-- C2: the claim says each of the 7 parameter slots is written exactly
when its value is non-zero.  The code violates this for slot 6: the
write loop runs `for (i = 0; i < 6; i++)`, so its `case 6` arm is dead
code and `cmd_param_6` is never written, even when non-zero.  First
conjunct: over every starting state and argument list, the call adds no
write to the `CMD_PARAM_6` register.  Second conjunct: evaluated on an
idle-and-ready register file with all seven parameters non-zero
(1..7), the call succeeds after writing slots 0-5, the doorbell and
the acknowledgement — and no `CMD_PARAM_6` write. -/
theorem C2_param_slot_6_never_written :
    (∀ (s0 : MbState) (a b c d p0 p1 p2 p3 p4 p5 p6 len : Nat),
      (io96b_mb_req s0 a b c d p0 p1 p2 p3 p4 p5 p6 len).2.2.writes.filter
          (fun p => p.1 == IOSSM_CMD_PARAM_6_OFFSET) =
        s0.writes.filter (fun p => p.1 == IOSSM_CMD_PARAM_6_OFFSET)) ∧
    ((io96b_mb_req mb_test_state 0 0 0 0 1 2 3 4 5 6 7 0).1 = 0 ∧
      (io96b_mb_req mb_test_state 0 0 0 0 1 2 3 4 5 6 7 0).2.2.writes =
        [(IOSSM_CMD_PARAM_0_OFFSET, 1), (IOSSM_CMD_PARAM_1_OFFSET, 2),
          (IOSSM_CMD_PARAM_2_OFFSET, 3), (IOSSM_CMD_PARAM_3_OFFSET, 4),
          (IOSSM_CMD_PARAM_4_OFFSET, 5), (IOSSM_CMD_PARAM_5_OFFSET, 6),
          (IOSSM_CMD_REQ_OFFSET, cmd_req_word 0 0 0 0),
          (IOSSM_CMD_RESPONSE_STATUS_OFFSET, 0)]) := by
  constructor
  · intro s0 a b c d p0 p1 p2 p3 p4 p5 p6 len
    unfold io96b_mb_req
    dsimp only
    split
    · rfl
    · split
      · rw [filter_writes_writel _ _ _ _ (by decide),
          filter_writes_writel_param _ _ _ _ (by decide),
          filter_writes_writel_param _ _ _ _ (by decide),
          filter_writes_writel_param _ _ _ _ (by decide),
          filter_writes_writel_param _ _ _ _ (by decide),
          filter_writes_writel_param _ _ _ _ (by decide),
          filter_writes_writel_param _ _ _ _ (by decide)]
      · rw [filter_writes_writel _ _ _ _ (by decide),
          filter_writes_writel _ _ _ _ (by decide),
          filter_writes_writel_param _ _ _ _ (by decide),
          filter_writes_writel_param _ _ _ _ (by decide),
          filter_writes_writel_param _ _ _ _ (by decide),
          filter_writes_writel_param _ _ _ _ (by decide),
          filter_writes_writel_param _ _ _ _ (by decide),
          filter_writes_writel_param _ _ _ _ (by decide)]
  · exact ⟨by decide, by decide⟩

/-- C5: every call that reaches the doorbell step writes the request
register exactly once (the filtered write log holds exactly one
`CMD_REQ` entry), only after the request register was observed to read
as all-zero (a busy request register produces no writes at all), and
the written word packs opcode at bit 0, command type at bit 16,
instance id at bit 24 and IP type at bit 29, recoverable by the
corresponding field extractions when the fields are in range. -/
theorem C5_doorbell_once_and_packed
    (s0 : MbState) (a b c d p0 p1 p2 p3 p4 p5 p6 len : Nat)
    (hw : s0.writes = []) :
    (readl s0 IOSSM_CMD_REQ_OFFSET &&& 0xFFFFFFFF = 0 →
      (io96b_mb_req s0 a b c d p0 p1 p2 p3 p4 p5 p6 len).2.2.writes.filter
          (fun p => p.1 == IOSSM_CMD_REQ_OFFSET) =
        [(IOSSM_CMD_REQ_OFFSET, cmd_req_word d c b a)]) ∧
    (readl s0 IOSSM_CMD_REQ_OFFSET &&& 0xFFFFFFFF ≠ 0 →
      (io96b_mb_req s0 a b c d p0 p1 p2 p3 p4 p5 p6 len).2.2.writes = []) ∧
    (d < 2 ^ 16 → c < 2 ^ 8 → b < 2 ^ 5 → a < 2 ^ 3 →
      cmd_req_word d c b a &&& 0xFFFF = d ∧
      (cmd_req_word d c b a >>> 16) &&& 0xFF = c ∧
      (cmd_req_word d c b a >>> 24) &&& 0x1F = b ∧
      cmd_req_word d c b a >>> 29 = a) := by
  refine ⟨?_, ?_, fun h1 h2 h3 h4 => cmd_req_word_fields d c b a h1 h2 h3 h4⟩
  · intro hidle
    unfold io96b_mb_req
    dsimp only
    rw [if_neg (by simp [hidle])]
    split
    · rw [filter_writes_writel_self,
        filter_writes_writel_param _ _ _ _ (by decide),
        filter_writes_writel_param _ _ _ _ (by decide),
        filter_writes_writel_param _ _ _ _ (by decide),
        filter_writes_writel_param _ _ _ _ (by decide),
        filter_writes_writel_param _ _ _ _ (by decide),
        filter_writes_writel_param _ _ _ _ (by decide), hw]
      rfl
    · rw [filter_writes_writel _ _ _ _ (by decide),
        filter_writes_writel_self,
        filter_writes_writel_param _ _ _ _ (by decide),
        filter_writes_writel_param _ _ _ _ (by decide),
        filter_writes_writel_param _ _ _ _ (by decide),
        filter_writes_writel_param _ _ _ _ (by decide),
        filter_writes_writel_param _ _ _ _ (by decide),
        filter_writes_writel_param _ _ _ _ (by decide), hw]
      rfl
  · intro hbusy
    unfold io96b_mb_req
    dsimp only
    rw [if_pos hbusy]
    exact hw

/-- Witness for C5: on the idle-and-ready register file, a call with
ip type 1, instance id 2, command type 3, opcode 4 logs exactly one
doorbell write carrying the packed word, and the packed word's fields
extract back to the inputs. -/
theorem C5_doorbell_once_and_packed_witness :
    (io96b_mb_req mb_test_state 1 2 3 4 0 0 0 0 0 0 0 0).2.2.writes.filter
        (fun p => p.1 == IOSSM_CMD_REQ_OFFSET) =
      [(IOSSM_CMD_REQ_OFFSET, cmd_req_word 4 3 2 1)] ∧
    cmd_req_word 4 3 2 1 >>> 29 = 1 :=
  ⟨(C5_doorbell_once_and_packed mb_test_state 1 2 3 4 0 0 0 0 0 0 0 0 rfl).1
      (by decide),
    ((C5_doorbell_once_and_packed mb_test_state 1 2 3 4 0 0 0 0 0 0 0 0 rfl).2.2
      (by norm_num) (by norm_num) (by norm_num) (by norm_num)).2.2.2⟩

/-- C9: the claim says a `resp_data_len` beyond the valid 0-2 data-word
range is rejected with a distinguishable error.  Counterexample: on an
idle-and-ready register file a call with `resp_data_len = 4` returns 0
(success), not an error — the out-of-range indices only print a
diagnostic. -/
theorem C9_oob_resp_len_counterexample :
    (io96b_mb_req mb_test_state 0 0 0 0 0 0 0 0 0 0 0 4).1 = 0 := by decide

/-- C9 (amended): an out-of-range `resp_data_len > 3` is not rejected:
data-word indices beyond 2 only print a diagnostic, so the call behaves
exactly as a call with `resp_data_len = 3` — it reads data words 0-2
and returns success. -/
theorem C9_oob_resp_len_ignored
    (s0 : MbState) (a b c d p0 p1 p2 p3 p4 p5 p6 len : Nat) (h : 3 ≤ len) :
    io96b_mb_req s0 a b c d p0 p1 p2 p3 p4 p5 p6 len =
      io96b_mb_req s0 a b c d p0 p1 p2 p3 p4 p5 p6 3 := by
  have h0 : 0 < len := by omega
  have h1 : 1 < len := by omega
  have h2 : 2 < len := by omega
  simp [io96b_mb_req, h0, h1, h2]

/-- Witness for C9 (amended): `resp_data_len = 4` behaves as 3 on the
idle-and-ready register file. -/
theorem C9_oob_resp_len_ignored_witness :
    io96b_mb_req mb_test_state 0 0 0 0 0 0 0 0 0 0 0 4 =
      io96b_mb_req mb_test_state 0 0 0 0 0 0 0 0 0 0 0 3 :=
  C9_oob_resp_len_ignored mb_test_state 0 0 0 0 0 0 0 0 0 0 0 4 (by omega)

theorem gmw_fold_eq (ws : List Nat) :
    ∀ acc, acc + low_byte_sum ws < 65536 →
      ws.foldl (fun acc w => (acc + (w &&& 0xFF)) % 65536) acc =
        acc + low_byte_sum ws := by
  induction ws with
  | nil =>
    intro acc _
    simp [low_byte_sum]
  | cons w ws ih =>
    intro acc h
    have hsum : low_byte_sum (w :: ws) = (w &&& 0xFF) + low_byte_sum ws := by
      simp [low_byte_sum]
    rw [hsum] at h
    simp only [List.foldl_cons]
    rw [Nat.mod_eq_of_lt (by omega), ih _ (by omega), hsum]
    omega

theorem gmw_instance_size_eq (ws : List Nat) (h : low_byte_sum ws < 65536) :
    gmw_instance_size ws = low_byte_sum ws := by
  unfold gmw_instance_size
  simpa using gmw_fold_eq ws 0 (by omega)

theorem gmw_loop_eq (insts : List (List Nat)) :
    ∀ (sizes : List Nat) (total : Nat),
      (∀ ws, ws ∈ insts → low_byte_sum ws ≠ 0) →
      total + (insts.map low_byte_sum).sum < 65536 →
      total + (insts.map low_byte_sum).sum ≠ 0 →
      gmw_loop insts sizes total =
        .ok (sizes.reverse ++ insts.map low_byte_sum,
          total + (insts.map low_byte_sum).sum) := by
  induction insts with
  | nil =>
    intro sizes total _ _ hnz
    simp only [List.map_nil, List.sum_nil, Nat.add_zero] at hnz ⊢
    simp only [gmw_loop]
    rw [if_neg hnz]
    simp
  | cons ws rest ih =>
    intro sizes total hnz hlt hnz2
    simp only [List.map_cons, List.sum_cons] at hlt hnz2 ⊢
    simp only [gmw_loop]
    rw [gmw_instance_size_eq ws (by omega)]
    rw [if_neg (hnz ws (by simp))]
    rw [Nat.mod_eq_of_lt (by omega)]
    rw [ih (low_byte_sum ws :: sizes) (total + low_byte_sum ws)
      (fun w hw => hnz w (by simp [hw])) (by omega) (by omega)]
    simp [List.reverse_cons, List.append_assoc]
    omega

/-- C8: `get_mem_width_info` aggregates memory size by addition, not
consensus: each instance's size is the sum over its interfaces of the
low 8 bits of the second response data word, and the overall size is
the sum of the instance sizes (both in u16 arithmetic, so stated below
the u16 bound; the source also demands each instance sum and the total
to be non-zero, else it errors out).  In particular three interfaces
reporting widths 8, 8, 4 yield instance size 20 and overall size 20. -/
theorem C8_size_aggregates_by_addition :
    (∀ insts : List (List Nat), insts ≠ [] →
      (∀ ws, ws ∈ insts → low_byte_sum ws ≠ 0) →
      (insts.map low_byte_sum).sum < 65536 →
      get_mem_width_info insts =
        .ok (insts.map low_byte_sum, (insts.map low_byte_sum).sum)) ∧
    get_mem_width_info [[8, 8, 4]] = .ok ([20], 20) := by
  constructor
  · intro insts hne hnz hlt
    have hpos : (insts.map low_byte_sum).sum ≠ 0 := by
      cases insts with
      | nil => exact absurd rfl hne
      | cons ws rest =>
        have h1 := hnz ws (by simp)
        simp only [List.map_cons, List.sum_cons]
        omega
    unfold get_mem_width_info
    have h := gmw_loop_eq insts [] 0 hnz (by omega) (by omega)
    simpa using h
  · rfl

/-- Witness for C8: two instances with interface widths [8, 8] and [4]
give instance sizes 16 and 4 and overall size 20. -/
theorem C8_size_aggregates_by_addition_witness :
    get_mem_width_info [[8, 8], [4]] = .ok ([16, 4], 20) :=
  C8_size_aggregates_by_addition.1 [[8, 8], [4]] (by decide) (by decide)
    (by decide)

theorem ddr_type_at_ne_unknown : ∀ v, v ≤ 5 → ddr_type_at v ≠ "UNKNOWN" := by
  decide

theorem ddr_type_at_inj_ne :
    ∀ r v, r ≤ 5 → v ≤ 5 → r ≠ v → ddr_type_at r ≠ ddr_type_at v := by
  intro r v hr hv hne
  interval_cases r <;> interval_cases v <;> first
    | exact absurd rfl hne
    | decide

theorem gmt_intf_seeded (rs : List Nat) : ∀ (i v : Nat), v ≤ 5 →
    (∀ r, r ∈ rs → r ≤ 5) →
    gmt_intf i rs (ddr_type_at v) =
      if rs.all (fun r => r == v) then .ok (ddr_type_at v) else .error i := by
  induction rs with
  | nil =>
    intro i v _ _
    simp [gmt_intf]
  | cons r rs ih =>
    intro i v hv hb
    have hr : r ≤ 5 := hb r (by simp)
    simp only [gmt_intf]
    rw [if_neg (ddr_type_at_ne_unknown v hv)]
    by_cases hrv : r = v
    · subst hrv
      rw [if_neg (by simp)]
      rw [ih i r hv (fun x hx => hb x (by simp [hx]))]
      simp [List.all_cons]
    · rw [if_pos (ddr_type_at_inj_ne r v hr hv hrv)]
      have hbe : (r == v) = false := beq_eq_false_iff_ne.mpr hrv
      simp [List.all_cons, hbe]

theorem gmt_loop_seeded (rss : List (List Nat)) : ∀ (i v : Nat), v ≤ 5 →
    (∀ rs, rs ∈ rss → ∀ r, r ∈ rs → r ≤ 5) →
    gmt_loop rss i (ddr_type_at v) =
      match first_mismatch v rss with
      | none => .ok (ddr_type_at v)
      | some j => .error (i + j) := by
  induction rss with
  | nil =>
    intro i v _ _
    simp [gmt_loop, first_mismatch]
  | cons rs rest ih =>
    intro i v hv hb
    simp only [gmt_loop]
    rw [gmt_intf_seeded rs i v hv (hb rs (by simp))]
    by_cases hall : rs.all (fun r => r == v) = true
    · rw [if_pos hall]
      dsimp only
      rw [ih (i + 1) v hv (fun s hs => hb s (by simp [hs]))]
      simp only [first_mismatch, hall, if_true]
      cases hfm : first_mismatch v rest with
      | none => simp [hfm]
      | some j =>
        simp only [hfm, Option.map_some']
        have hidx : i + 1 + j = i + (j + 1) := by omega
        simp [hidx]
    · rw [if_neg hall]
      dsimp only
      simp only [first_mismatch]
      rw [if_neg hall]
      simp

theorem gmt_intf_unseeded_cons (r : Nat) (rest : List Nat) (i : Nat)
    (hb : ∀ x, x ∈ r :: rest → x ≤ 5) :
    gmt_intf i (r :: rest) "UNKNOWN" =
      if rest.all (fun x => x == r) then .ok (ddr_type_at r) else .error i := by
  have hr : r ≤ 5 := hb r (by simp)
  simp only [gmt_intf, if_true]
  rw [if_neg (by simp)]
  exact gmt_intf_seeded rest i r hr (fun x hx => hb x (by simp [hx]))

theorem gmt_loop_unknown_eq (rss : List (List Nat)) : ∀ i : Nat,
    (∀ rs, rs ∈ rss → ∀ r, r ∈ rs → r ≤ 5) →
    gmt_loop rss i "UNKNOWN" =
      match rss.flatten.head? with
      | none => .ok "UNKNOWN"
      | some r₀ =>
        match first_mismatch r₀ rss with
        | none => .ok (ddr_type_at r₀)
        | some j => .error (i + j) := by
  induction rss with
  | nil =>
    intro i _
    simp [gmt_loop]
  | cons rs rest ih =>
    intro i hb
    cases rs with
    | nil =>
      simp only [gmt_loop, gmt_intf]
      rw [ih (i + 1) (fun s hs => hb s (by simp [hs]))]
      simp only [List.flatten_cons, List.nil_append, first_mismatch,
        List.all_nil, if_true]
      cases hh : rest.flatten.head? with
      | none => simp
      | some r₀ =>
        cases hfm : first_mismatch r₀ rest with
        | none => simp [hfm]
        | some j =>
          simp only [hfm, Option.map_some']
          have hidx : i + 1 + j = i + (j + 1) := by omega
          simp [hidx]
    | cons r rs' =>
      have hr : r ≤ 5 := hb (r :: rs') (by simp) r (by simp)
      simp only [gmt_loop]
      rw [gmt_intf_unseeded_cons r rs' i (hb (r :: rs') (by simp))]
      by_cases hall : rs'.all (fun x => x == r) = true
      · rw [if_pos hall]
        dsimp only
        rw [gmt_loop_seeded rest (i + 1) r hr (fun s hs => hb s (by simp [hs]))]
        simp only [List.flatten_cons, List.cons_append, List.head?_cons,
          first_mismatch, List.all_cons, beq_self_eq_true, Bool.true_and, hall,
          if_true]
        cases hfm : first_mismatch r rest with
        | none => simp [hfm]
        | some j =>
          simp only [hfm, Option.map_some']
          have hidx : i + 1 + j = i + (j + 1) := by omega
          simp [hidx]
      · rw [if_neg hall]
        dsimp only
        simp only [List.flatten_cons, List.cons_append, List.head?_cons,
          first_mismatch, List.all_cons, beq_self_eq_true, Bool.true_and]
        rw [if_neg hall]
        simp

theorem first_mismatch_none_iff (v : Nat) : ∀ rss : List (List Nat),
    first_mismatch v rss = none ↔ ∀ rs, rs ∈ rss → ∀ r, r ∈ rs → r = v := by
  intro rss
  induction rss with
  | nil => simp [first_mismatch]
  | cons rs rest ih =>
    simp only [first_mismatch]
    by_cases hall : rs.all (fun r => r == v) = true
    · rw [if_pos hall]
      rw [Option.map_eq_none', ih]
      constructor
      · intro h s hs r hr
        rcases List.mem_cons.mp hs with rfl | hs'
        · simpa using List.all_eq_true.mp hall r hr
        · exact h s hs' r hr
      · intro h s hs r hr
        exact h s (by simp [hs]) r hr
    · rw [if_neg hall]
      have hfalse : rs.all (fun r => r == v) = false := by
        cases hx : rs.all (fun r => r == v)
        · rfl
        · exact absurd hx hall
      rcases List.all_eq_false.mp hfalse with ⟨r, hr, hrv⟩
      constructor
      · intro h
        exact absurd h (by simp)
      · intro h
        exact absurd (h rs (by simp) r hr) (by simpa using hrv)

theorem first_mismatch_some (v : Nat) : ∀ (rss : List (List Nat)) (j : Nat),
    first_mismatch v rss = some j →
    j < rss.length ∧ ∃ r, r ∈ rss.getD j [] ∧ r ≠ v := by
  intro rss
  induction rss with
  | nil =>
    intro j h
    simp [first_mismatch] at h
  | cons rs rest ih =>
    intro j h
    simp only [first_mismatch] at h
    by_cases hall : rs.all (fun r => r == v) = true
    · rw [if_pos hall] at h
      rcases Option.map_eq_some'.mp h with ⟨j', hj', rfl⟩
      rcases ih j' hj' with ⟨hlen, r, hr, hne⟩
      refine ⟨by simpa using Nat.succ_lt_succ hlen, r, ?_, hne⟩
      simpa [List.getD_cons_succ] using hr
    · rw [if_neg hall] at h
      have hj : j = 0 := by
        cases h
        rfl
      subst hj
      have hfalse : rs.all (fun r => r == v) = false := by
        cases hx : rs.all (fun r => r == v)
        · rfl
        · exact absurd hx hall
      rcases List.all_eq_false.mp hfalse with ⟨r, hr, hrv⟩
      exact ⟨by simp, r, by simpa [List.getD_cons_zero] using hr,
        by simpa using hrv⟩

theorem mem_of_head?_some {l : List Nat} {a : Nat} (h : l.head? = some a) :
    a ∈ l := by
  cases l with
  | nil => simp at h
  | cons b bs =>
    simp only [List.head?_cons, Option.some.injEq] at h
    simp [h]

theorem getD_mem_of_lt :
    ∀ (l : List (List Nat)) (j : Nat), j < l.length → l.getD j [] ∈ l := by
  intro l
  induction l with
  | nil =>
    intro j h
    simp at h
  | cons a l ih =>
    intro j h
    cases j with
    | zero => simp
    | succ j' =>
      simp only [List.getD_cons_succ]
      exact List.mem_cons_of_mem a (ih j' (by simpa using h))

/-- C7: the claim says that whenever two interfaces of the set report
different DDR types the call returns a consistency error.
Counterexample: with the first interface reporting type code 6
("UNKNOWN", a member of the driver's supported-type table) and the
second reporting type code 1 ("DDR5") — two different reported types —
`get_mem_technology` succeeds with aggregate "DDR5": a report equal to
the "UNKNOWN" sentinel made before the aggregate is seeded re-seeds the
aggregate from the next interface instead of producing an error. -/
theorem C7_unknown_report_counterexample :
    get_mem_technology [[6, 1]] = .ok "DDR5" ∧
    ddr_type_at 6 = "UNKNOWN" ∧ ddr_type_at 1 = "DDR5" :=
  ⟨rfl, rfl, rfl⟩

/-- C7 (amended): restricted to interfaces reporting actual DDR types
(codes 0-5, never the "UNKNOWN" sentinel code 6), the claim holds: the
first interface's reported type seeds the aggregate and the call
succeeds exactly when all interfaces report the same type, in which
case the aggregate equals that type; a mismatch yields a consistency
error whose value is the index of an instance holding a report that
differs from another interface's report. -/
theorem C7_first_type_seeds_aggregate (rss : List (List Nat))
    (hb : ∀ rs, rs ∈ rss → ∀ r, r ∈ rs → r ≤ 5) :
    ((∃ s, get_mem_technology rss = .ok s) ↔
      ∀ r, r ∈ rss.flatten → ∀ r', r' ∈ rss.flatten → r = r') ∧
    (∀ r₀, rss.flatten.head? = some r₀ → (∀ r, r ∈ rss.flatten → r = r₀) →
      get_mem_technology rss = .ok (ddr_type_at r₀)) ∧
    (∀ i, get_mem_technology rss = .error i →
      i < rss.length ∧
      ∃ r, r ∈ rss.getD i [] ∧ ∃ r', r' ∈ rss.flatten ∧ r ≠ r') := by
  have E := gmt_loop_unknown_eq rss 0 hb
  have hgm : get_mem_technology rss = gmt_loop rss 0 "UNKNOWN" := rfl
  refine ⟨?_, ?_, ?_⟩
  · rw [hgm, E]
    cases hh : rss.flatten.head? with
    | none =>
      dsimp only
      have hempty : rss.flatten = [] := List.head?_eq_none_iff.mp hh
      constructor
      · intro _ r hr
        rw [hempty] at hr
        simp at hr
      · intro _
        exact ⟨"UNKNOWN", rfl⟩
    | some r₀ =>
      dsimp only
      cases hfm : first_mismatch r₀ rss with
      | none =>
        dsimp only
        constructor
        · intro _ r hr r' hr'
          have hall := (first_mismatch_none_iff r₀ rss).mp hfm
          rcases List.mem_flatten.mp hr with ⟨s, hs, hrs⟩
          rcases List.mem_flatten.mp hr' with ⟨s', hs', hrs'⟩
          rw [hall s hs r hrs, hall s' hs' r' hrs']
        · intro _
          exact ⟨ddr_type_at r₀, rfl⟩
      | some j =>
        dsimp only
        constructor
        · intro hok
          rcases hok with ⟨s, hs⟩
          simp at hs
        · intro hpair
          rcases first_mismatch_some r₀ rss j hfm with ⟨hlen, r, hr, hne⟩
          have hrf : r ∈ rss.flatten :=
            List.mem_flatten.mpr ⟨rss.getD j [], getD_mem_of_lt rss j hlen, hr⟩
          exact absurd (hpair r hrf r₀ (mem_of_head?_some hh)) hne
  · intro r₀ hh hall
    rw [hgm, E, hh]
    dsimp only
    have hfm : first_mismatch r₀ rss = none :=
      (first_mismatch_none_iff r₀ rss).mpr
        (fun s hs r hr => hall r (List.mem_flatten.mpr ⟨s, hs, hr⟩))
    rw [hfm]
  · intro i hE
    rw [hgm, E] at hE
    cases hh : rss.flatten.head? with
    | none =>
      rw [hh] at hE
      simp at hE
    | some r₀ =>
      rw [hh] at hE
      dsimp only at hE
      cases hfm : first_mismatch r₀ rss with
      | none =>
        rw [hfm] at hE
        simp at hE
      | some j =>
        rw [hfm] at hE
        dsimp only at hE
        simp only [Except.error.injEq] at hE
        rcases first_mismatch_some r₀ rss j hfm with ⟨hlen, r, hr, hne⟩
        have hij : i = j := by omega
        subst hij
        exact ⟨hlen, r, hr, r₀, mem_of_head?_some hh, hne⟩

/-- Witness for C7 (amended): two instances each with one interface
reporting type code 1 agree, so the call succeeds with aggregate
`ddr_type_at 1 = "DDR5"`. -/
theorem C7_first_type_seeds_aggregate_witness :
    get_mem_technology [[1], [1]] = .ok (ddr_type_at 1) :=
  (C7_first_type_seeds_aggregate [[1], [1]] (by decide)).2.1 1 rfl (by decide)

/-- Witness for C3: the stale-index evaluation at instance 0. -/
theorem C3_overall_cal_status_stale_index_witness :
    (dbe_recal_recheck 2 (fun _ => true) true).2 = true ∧
    (dbe_recal_recheck 2 (fun _ => true) true).1 0 = false :=
  ⟨C3_overall_cal_status_stale_index.1,
    C3_overall_cal_status_stale_index.2 0 (by decide)⟩
